import Mathlib

/-
Verification of the spanreed conversation arbitrator, correlation registry
and remote RPC client against their natural-language specification.

The definitions below are a shallow embedding of the Python source:
  * src/spanreed/apis/telegram_bot.py  (conversation arbitrator, correlation registry)
  * src/spanreed/apis/obsidian.py      (remote RPC client)

All state is for a single end user: the Python code keys every piece of
state (queues, current interaction, lock, callback events) by the telegram
user id, and no operation ever touches another user's entry, so the
per-user projection is exact.
-/

set_option maxHeartbeats 1000000

namespace Spanreed

/-! ## Priorities

`class UserInteractionPriority(IntEnum): HIGH = auto(); NORMAL = auto(); LOW = auto()`
`auto()` numbers the members 1, 2, 3 in definition order, so the numeric
values are HIGH = 1, NORMAL = 2, LOW = 3: a *smaller* value is *more urgent*.
Iterating `for p in UserInteractionPriority` visits members in definition
order, i.e. from most urgent to least urgent. -/

inductive UserInteractionPriority where
  | HIGH
  | NORMAL
  | LOW
deriving DecidableEq, Repr

namespace UserInteractionPriority

/-- Numeric value assigned by `IntEnum`/`auto()`: HIGH = 1, NORMAL = 2, LOW = 3. -/
def val : UserInteractionPriority → Nat
  | .HIGH => 1
  | .NORMAL => 2
  | .LOW => 3

end UserInteractionPriority

/-- Iteration order of `for priority in UserInteractionPriority` (definition
order, most urgent first). -/
def priorityIterationOrder : List UserInteractionPriority :=
  [.HIGH, .NORMAL, .LOW]

/-! ## Interaction objects and arbitrator state -/

/-- Mutable fields of a Python `UserInteraction` object, plus `cancelled`,
which records whether `task.cancel()` has been called on the owning task. -/
structure InteractionData where
  priority : UserInteractionPriority
  /-- `self.event` (an `asyncio.Event`): true once `allow_to_run` has set it. -/
  eventSet : Bool
  /-- `self.running`: set to true when `wait_to_run` returns. -/
  running : Bool
  /-- `self.preempted`: set to true by `preempt`. -/
  preempted : Bool
  /-- whether `self.task.cancel()` has been called (by `preempt`). -/
  cancelled : Bool
deriving DecidableEq, Repr

/-- Control point of the task driving one `user_interaction` context-manager
invocation. -/
inductive TaskPhase where
  /-- suspended in `await user_interaction.wait_to_run()`. -/
  | waitingInQueue
  /-- `wait_to_run` returned; suspended acquiring the per-user `asyncio.Lock`. -/
  | awaitingLock
  /-- inside `async with lock`, executing the body (the spec's `Running`,
      "lock held"). -/
  | inBody
  /-- not inside `user_interaction` (never entered, exited, or cancellation
      propagated out). -/
  | idle
deriving DecidableEq, Repr

/-- Pointwise update of a function `Nat → α` at one key (a dict write). -/
def upd {α : Type} (f : Nat → α) (i : Nat) (a : α) : Nat → α :=
  fun j => if j = i then a else f j

/-- The per-user arbitrator state held in `app.bot_data`, projected to one
user. Interactions are identified by a `Nat` id; `nextId` is a freshness
counter recording the order in which `user_interaction` calls created
(and enqueued) their `UserInteraction` objects. -/
structure ArbState where
  /-- `USER_INTERACTION_QUEUES[user]`: one FIFO list per priority. -/
  queues : UserInteractionPriority → List Nat
  /-- `CURRENT_USER_INTERACTION[user]`. -/
  current : Option Nat
  /-- holder of `USER_INTERACTION_LOCKS[user]` (the `asyncio.Lock`). -/
  lockHolder : Option Nat
  /-- the `UserInteraction` objects, by id. -/
  data : Nat → InteractionData
  /-- control point of each interaction's task. -/
  phase : Nat → TaskPhase
  /-- freshness counter for ids (= number of `user_interaction` calls so far). -/
  nextId : Nat

/-- Replace one priority's queue list. -/
def setQueue (s : ArbState) (p : UserInteractionPriority)
    (q : List Nat) : ArbState :=
  { s with queues := fun r => if r = p then q else s.queues r }

/-- `_add_to_user_interaction_queue`: append the interaction at the back of
its own priority's list. -/
def addToUserInteractionQueue (s : ArbState) (i : Nat) : ArbState :=
  setQueue s ((s.data i).priority)
    (s.queues ((s.data i).priority) ++ [i])

/-- `UserInteraction.allow_to_run`: `self.event.set()`. -/
def allowToRun (s : ArbState) (i : Nat) : ArbState :=
  { s with data := upd s.data i ({ s.data i with eventSet := true }) }

/-- `UserInteraction.preempt`: `self.preempted = True; self.task.cancel()`. -/
def preemptInteraction (s : ArbState) (i : Nat) : ArbState :=
  { s with
    data := upd s.data i ({ s.data i with preempted := true, cancelled := true }) }

/-- Body of one iteration of the scan loop in
`_preempt_user_interaction_if_needed`, for the tier `p` under scan and the
current interaction `cur`. Every branch of the Python loop body `return`s,
so the loop performs exactly one iteration (on the first tier, HIGH). -/
def preemptScanStep (s : ArbState) (cur : Nat)
    (p : UserInteractionPriority) : ArbState :=
  if p.val ≥ ((s.data cur).priority).val ∨ s.queues p = [] then
    s
  else if (s.data cur).running then
    preemptInteraction s cur
  else
    -- preempted before starting to run: re-add to the queue instead of
    -- cancelling (the current slot is left untouched by this branch)
    addToUserInteractionQueue s cur

/-- The `for possible_priority in UserInteractionPriority` loop of
`_preempt_user_interaction_if_needed`. Since every path through the body
returns, only the head of the iteration order is ever examined. -/
def preemptScan (s : ArbState) (cur : Nat) :
    List UserInteractionPriority → ArbState
  | [] => s
  | p :: _ => preemptScanStep s cur p

/-- `_preempt_user_interaction_if_needed`. -/
def preemptUserInteractionIfNeeded (s : ArbState) : ArbState :=
  match s.current with
  | none => s
  | some cur => preemptScan s cur priorityIterationOrder

/-- The grant scan of `_try_to_allow_next_user_interaction`: find the first
non-empty tier (most urgent first), `pop(0)` its front entry, call
`allow_to_run` on it and `_set_current_user_interaction`. -/
def grantScan (s : ArbState) :
    List UserInteractionPriority → ArbState
  | [] => s
  | p :: rest =>
    match s.queues p with
    | [] => grantScan s rest
    | i :: q =>
      let s1 := setQueue s p q
      let s2 := allowToRun s1 i
      { s2 with current := some i }

/-- `_try_to_allow_next_user_interaction`: run the preemption check, then,
if no interaction is current, grant the front of the first non-empty tier. -/
def tryToAllowNextUserInteraction (s : ArbState) : ArbState :=
  let s1 := preemptUserInteractionIfNeeded s
  if s1.current.isSome then s1
  else grantScan s1 priorityIterationOrder

/-- A freshly constructed `UserInteraction` (constructor of the Python
class): event unset, not running, not preempted, task not cancelled. -/
def freshData (p : UserInteractionPriority) : InteractionData :=
  { priority := p, eventSet := false, running := false,
    preempted := false, cancelled := false }

/-! ## The steps a `user_interaction` caller can take

`user_interaction` runs, in order: construct a `UserInteraction`, append it
to its tier's queue, `_try_to_allow_next_user_interaction`, then suspend in
`wait_to_run`; once woken it sets `running`, acquires the per-user lock,
runs the body, and in a `finally` clears the current slot and calls
`_try_to_allow_next_user_interaction` again before releasing the lock. -/

/-- Entry of `user_interaction`: create the interaction (with a fresh id),
enqueue it, and run `_try_to_allow_next_user_interaction`; the caller then
suspends in `wait_to_run`. -/
def acquireStep (s : ArbState) (p : UserInteractionPriority) : ArbState :=
  let i := s.nextId
  let s0 : ArbState :=
    { s with data := upd s.data i (freshData p),
             phase := upd s.phase i .waitingInQueue,
             nextId := i + 1 }
  let s1 := addToUserInteractionQueue s0 i
  tryToAllowNextUserInteraction s1

/-- `wait_to_run` returns (possible once the event is set): `self.running =
True`; the task proceeds to acquire the per-user lock. -/
def wakeStep (s : ArbState) (i : Nat) : ArbState :=
  { s with data := upd s.data i ({ s.data i with running := true }),
           phase := upd s.phase i .awaitingLock }

/-- The per-user `asyncio.Lock` is acquired (possible only when free): the
body starts executing. -/
def lockStep (s : ArbState) (i : Nat) : ArbState :=
  { s with lockHolder := some i, phase := upd s.phase i .inBody }

/-- The body finishes (normally, or by a cancellation raised inside it):
the `finally` block clears the current slot and runs
`_try_to_allow_next_user_interaction`, then `async with lock` releases the
lock. -/
def finishStep (s : ArbState) (i : Nat) : ArbState :=
  let s1 : ArbState := { s with current := none }
  let s2 := tryToAllowNextUserInteraction s1
  { s2 with lockHolder := none, phase := upd s2.phase i .idle }

/-- The caller's task is cancelled while suspended in `wait_to_run`: the
`CancelledError` propagates out of `user_interaction`. There is no
`try`/`finally` around the queue wait, so nothing is cleaned up — in
particular the interaction is NOT removed from its tier's queue. -/
def cancelQueuedStep (s : ArbState) (i : Nat) : ArbState :=
  { s with phase := upd s.phase i .idle }

/-- The task is cancelled while suspended acquiring the lock (preemption of
a woken-but-not-yet-locked interaction): the `try` block was never entered,
so no cleanup runs. -/
def cancelAwaitLockStep (s : ArbState) (i : Nat) : ArbState :=
  { s with phase := upd s.phase i .idle }

/-- One scheduler step of the per-user arbitrator. -/
inductive Step : ArbState → ArbState → Prop where
  | acquire (s : ArbState) (p : UserInteractionPriority) :
      Step s (acquireStep s p)
  | wake (s : ArbState) (i : Nat)
      (h1 : s.phase i = .waitingInQueue)
      (h2 : (s.data i).eventSet = true)
      (h3 : (s.data i).cancelled = false) :
      Step s (wakeStep s i)
  | lockAcquire (s : ArbState) (i : Nat)
      (h1 : s.phase i = .awaitingLock)
      (h2 : s.lockHolder = none)
      (h3 : (s.data i).cancelled = false) :
      Step s (lockStep s i)
  | finishBody (s : ArbState) (i : Nat)
      (h1 : s.phase i = .inBody)
      (h2 : s.lockHolder = some i) :
      Step s (finishStep s i)
  | cancelWhileQueued (s : ArbState) (i : Nat)
      (h1 : s.phase i = .waitingInQueue) :
      Step s (cancelQueuedStep s i)
  | cancelWhileAwaitingLock (s : ArbState) (i : Nat)
      (h1 : s.phase i = .awaitingLock)
      (h2 : (s.data i).cancelled = true) :
      Step s (cancelAwaitLockStep s i)

/-- The state of a user with no interactions yet. -/
def initState : ArbState :=
  { queues := fun _ => [],
    current := none,
    lockHolder := none,
    data := fun _ => freshData .NORMAL,
    phase := fun _ => .idle,
    nextId := 0 }

/-- States reachable from the initial state by arbitrator steps. -/
inductive Reachable : ArbState → Prop where
  | init : Reachable initState
  | step {s s' : ArbState} : Reachable s → Step s s' → Reachable s'

/-! ## Correlation registry

`app.bot_data[CALLBACK_EVENTS]` maps a callback id to an `asyncio.Event`;
`app.bot_data[CALLBACK_EVENT_RESULTS]` maps a callback id to the selected
button position. Both are per-process dicts; entries for different ids are
independent. -/

/-- The two correlation dicts, as partial maps: `none` means the key is
absent; for `callbackEvents`, `some b` is an event whose set-flag is `b`. -/
structure CorrelationRegistry where
  callbackEvents : Nat → Option Bool
  callbackEventResults : Nat → Option Nat

/-- `TelegramBotApi.init_callback`: allocates an id (passed in here; the
code draws `uuid.uuid4().int`) and stores a fresh, unset `asyncio.Event`
under it. -/
def initCallback (r : CorrelationRegistry) (callbackId : Nat) :
    CorrelationRegistry :=
  { r with callbackEvents := fun j =>
      if j = callbackId then some false else r.callbackEvents j }

/-- `TelegramBotPlugin.handle_callback_query` for callback id `cid` and
selected position `pos`: store the result, then look up the event
(`bot_data[CALLBACK_EVENTS][cid]`, a `KeyError` — modelled as `none` — if
absent) and set it. Nothing is ever deleted from either dict. -/
def handleCallbackQuery (r : CorrelationRegistry) (cid pos : Nat) :
    Option CorrelationRegistry :=
  let r1 : CorrelationRegistry :=
    { r with callbackEventResults := fun j =>
        if j = cid then some pos else r.callbackEventResults j }
  match r1.callbackEvents cid with
  | none => none
  | some _ =>
    some { r1 with callbackEvents := fun j =>
        if j = cid then some true else r1.callbackEvents j }

/-! ## Remote RPC client (`ObsidianApi._send_request`)

The loop is modelled as a function of two oracles:
  * `ids k` — the value of `uuid.uuid4().int` drawn on attempt `k`
    (attempts are numbered 1, 2, 3 as in `range(1, max_attempts + 1)`);
  * `env k` — `some resp` if a response arrives on attempt `k`'s response
    queue within the 30-second timeout, `none` if the `blpop` times out.

The outbound queue `obsidian-plugin-tasks:<user>` is tracked as the list of
request ids whose payloads it holds (the JSON payload is determined by the
request id, since method, params and the id fix the serialized string;
`lpush` prepends, `lrem ... 0 payload` removes every copy of the payload). -/

/-- The JSON shape of an RPC response that matters to `_send_request`:
the `success` field and the optional `result` field (`none` = absent). -/
structure RpcResponse where
  success : Bool
  result : Option String
deriving DecidableEq, Repr

/-- Python's `needle in hay` for strings: `needle` occurs in `hay` as a
contiguous substring. -/
def pyIn (needle hay : String) : Bool :=
  let n := needle.toList
  let h := hay.toList
  (List.range (h.length + 1)).any fun k => (h.drop k).take n.length = n

/-- How one call of `_send_request` terminates. -/
inductive RpcOutcome where
  /-- `return response.get("result", None)` on a success response. -/
  | ok (result : Option String)
  /-- `ObsidianApiTimeoutError` raised after the final attempt timed out. -/
  | obsidianApiTimeoutError
  /-- `FileNotFoundError` raised: `response["result"] == "file not found"`. -/
  | fileNotFoundError
  /-- `FileExistsError` raised:
      `"Destination file already exists" in response["result"]`. -/
  | fileExistsError
  /-- generic `RuntimeError` raised on any other failure response. -/
  | runtimeError
  /-- `KeyError`: a failure response with no `result` field. -/
  | keyError
deriving DecidableEq, Repr

/-- What a call of `_send_request` did: how many attempts it made, the
request id drawn on each attempt (in order), the final contents of the
outbound queue, and how it terminated. -/
structure RpcTrace where
  attemptsMade : Nat
  requestIds : List Nat
  outbound : List Nat
  outcome : RpcOutcome
deriving DecidableEq, Repr

/-- The code after the retry loop breaks with a response:
`if not response["success"]: ...classify...` else
`return response.get("result", None)`. -/
def classifyResponse (resp : RpcResponse) : RpcOutcome :=
  if resp.success = false then
    match resp.result with
    | none => .keyError
    | some r =>
      if r = "file not found" then .fileNotFoundError
      else if pyIn "Destination file already exists" r then .fileExistsError
      else .runtimeError
  else
    .ok resp.result

/-- The `for attempt in range(1, max_attempts + 1)` loop of
`_send_request`, iterating over the list of remaining attempt numbers.
Per attempt: draw a fresh `request_id`, `lpush` the payload, `blpop` the
response queue with a 30s timeout; on timeout, `lrem` the payload and
either `continue` (if `attempt < max_attempts`) or raise
`ObsidianApiTimeoutError`; on a response, break out of the loop and
classify. The `[]` case is unreachable when iterating
`range(1, max_attempts + 1)` with `max_attempts ≥ 1`, because the final
attempt either breaks or raises; it is given the raising outcome. -/
def sendRequestLoop (ids : Nat → Nat) (env : Nat → Option RpcResponse)
    (maxAttempts : Nat) (queue used : List Nat) :
    List Nat → RpcTrace
  | [] =>
    { attemptsMade := used.length, requestIds := used,
      outbound := queue, outcome := .obsidianApiTimeoutError }
  | attempt :: rest =>
    let rid := ids attempt
    let queue1 := rid :: queue
    match env attempt with
    | some resp =>
      { attemptsMade := attempt, requestIds := used ++ [rid],
        outbound := queue1, outcome := classifyResponse resp }
    | none =>
      let queue2 := queue1.filter fun x => decide (x ≠ rid)
      if attempt < maxAttempts then
        sendRequestLoop ids env maxAttempts queue2 (used ++ [rid]) rest
      else
        { attemptsMade := attempt, requestIds := used ++ [rid],
          outbound := queue2, outcome := .obsidianApiTimeoutError }

/-- `ObsidianApi._send_request` with its hard-coded `max_attempts = 3`,
starting from an empty outbound queue; `List.range' 1 3 = [1, 2, 3]` is
`range(1, max_attempts + 1)`. -/
def obsidianSendRequest (ids : Nat → Nat)
    (env : Nat → Option RpcResponse) : RpcTrace :=
  sendRequestLoop ids env 3 [] [] (List.range' 1 3)

/-! ## Preemption signalling to the caller

The `except asyncio.CancelledError` clause of `user_interaction`:
```
except asyncio.CancelledError:
    if user_interaction.preempted:
        if propagate_preemption:
            user_interaction.task.uncancel()
            raise UserInteractionPreempted()
    raise
```
-/

/-- What the except-clause re-raises. -/
inductive CancellationOutcome where
  /-- `raise UserInteractionPreempted()`. -/
  | userInteractionPreempted
  /-- bare `raise`: the original `asyncio.CancelledError` propagates. -/
  | cancelledError
deriving DecidableEq, Repr

/-- Effect of the except-clause: whether `task.uncancel()` was called, and
what was raised. -/
structure CancellationHandling where
  uncancelled : Bool
  raised : CancellationOutcome
deriving DecidableEq, Repr

/-- The except-clause of `user_interaction`, as a function of the
interaction's `preempted` flag and the `propagate_preemption` argument. -/
def handleBodyCancellation (preempted propagatePreemption : Bool) :
    CancellationHandling :=
  if preempted then
    if propagatePreemption then
      { uncancelled := true, raised := .userInteractionPreempted }
    else
      { uncancelled := false, raised := .cancelledError }
  else
    { uncancelled := false, raised := .cancelledError }

/-- Default of the `propagate_preemption` keyword argument of
`user_interaction`. -/
def propagatePreemptionDefault : Bool := true

/-! ## Characterization of the preemption check

Because every branch of the scan loop's body returns, the loop only ever
examines the HIGH tier: preemption happens exactly when the current
interaction's priority is not HIGH and the HIGH queue is non-empty. -/

theorem preemptCheckChar (s : ArbState) (cur : Nat)
    (hcur : s.current = some cur) :
    preemptUserInteractionIfNeeded s =
      if (s.data cur).priority = .HIGH ∨ s.queues .HIGH = [] then s
      else if (s.data cur).running then preemptInteraction s cur
      else addToUserInteractionQueue s cur := by
  simp only [preemptUserInteractionIfNeeded, hcur, priorityIterationOrder,
    preemptScan, preemptScanStep]
  cases h : (s.data cur).priority <;>
    simp [UserInteractionPriority.val, h]

/-! ## Claim C1 -/

/-- A LOW-priority interaction (id 0) that has been granted, woken and has
entered its body. -/
def cexLowRunning : ArbState :=
  lockStep (wakeStep (acquireStep initState .LOW) 0) 0

/-- `cexLowRunning` after a NORMAL-priority `user_interaction` call (id 1)
has enqueued itself — which runs the preemption check. -/
def cexNormalQueued : ArbState := acquireStep cexLowRunning .NORMAL

/-- C1, counterexample: lease 1 (NORMAL) is strictly higher priority than
the running lease 0 (LOW) and became Queued while 0 runs (its `acquire`
ran the preemption check), yet lease 0 was not preempted: the scan stopped
at the empty HIGH tier. This refutes the claimed "if and only if". -/
theorem claim1_counterexample :
    (cexNormalQueued.data 1).priority.val < (cexNormalQueued.data 0).priority.val
    ∧ cexNormalQueued.current = some 0
    ∧ (cexNormalQueued.data 0).running = true
    ∧ cexNormalQueued.queues .NORMAL = [1]
    ∧ (cexNormalQueued.data 0).preempted = false
    ∧ (cexNormalQueued.data 0).cancelled = false := by
  decide

/-- C1, amended: a Running lease is preempted by the check if and only if
its own priority is not HIGH and the HIGH tier's queue is non-empty (the
scan stops at the first tier that is same-or-lower urgency or empty, so
only the HIGH tier is ever examined); in particular a queued lease of
equal-or-lower priority never causes preemption. -/
theorem claim1_amended_preemption_iff (s : ArbState) (cur : Nat)
    (hcur : s.current = some cur)
    (hrun : (s.data cur).running = true)
    (hpre : (s.data cur).preempted = false) :
    ((preemptUserInteractionIfNeeded s).data cur).preempted = true
      ↔ ((s.data cur).priority ≠ .HIGH ∧ s.queues .HIGH ≠ []) := by
  rw [preemptCheckChar s cur hcur]
  by_cases hcond : (s.data cur).priority = .HIGH ∨ s.queues .HIGH = []
  · rw [if_pos hcond]
    simp only [hpre]
    constructor
    · intro h
      exact absurd h (by simp)
    · intro h
      rcases hcond with h1 | h1
      · exact absurd h1 h.1
      · exact absurd h1 h.2
  · rw [if_neg hcond, if_pos hrun]
    push_neg at hcond
    simp [preemptInteraction, upd, hcond.1, hcond.2]

/-- A state on which the amended C1 predicts preemption: lease 0 (NORMAL)
is running, and a HIGH lease (id 1) is queued. -/
def witPreemptState : ArbState :=
  { queues := fun p => if p = .HIGH then [1] else [],
    current := some 0,
    lockHolder := some 0,
    data := fun j => if j = 0 then
        { priority := .NORMAL, eventSet := true, running := true,
          preempted := false, cancelled := false }
      else freshData .HIGH,
    phase := fun j => if j = 0 then .inBody else .waitingInQueue,
    nextId := 2 }

/-- Witness for C1 amended at `witPreemptState`. -/
theorem claim1_amended_preemption_iff_witness :
    witPreemptState.current = some 0
    ∧ (witPreemptState.data 0).running = true
    ∧ (((preemptUserInteractionIfNeeded witPreemptState).data 0).preempted = true
        ↔ ((witPreemptState.data 0).priority ≠ .HIGH
            ∧ witPreemptState.queues .HIGH ≠ [])) :=
  ⟨by decide, by decide,
   claim1_amended_preemption_iff witPreemptState 0 (by decide) (by decide) (by decide)⟩

/-! ## Claim C7 -/

/-- C7: the preemption action on a Granted-but-not-yet-running current
lease re-inserts it at the back of its own priority tier with all its
fields (in particular its priority) unchanged and does not cancel its
task; and the only leases the preemption check ever cancels are leases
that are current and already running. -/
theorem claim7_requeue_granted_not_running :
    (∀ (s : ArbState) (cur : Nat),
      s.current = some cur →
      (s.data cur).running = false →
      (s.data cur).priority ≠ .HIGH →
      s.queues .HIGH ≠ [] →
      (preemptUserInteractionIfNeeded s).queues ((s.data cur).priority)
          = s.queues ((s.data cur).priority) ++ [cur]
        ∧ (∀ i, (preemptUserInteractionIfNeeded s).data i = s.data i)
        ∧ (preemptUserInteractionIfNeeded s).current = s.current)
    ∧ (∀ (s : ArbState) (i : Nat),
        ((preemptUserInteractionIfNeeded s).data i).cancelled = true →
        (s.data i).cancelled = true
          ∨ (s.current = some i ∧ (s.data i).running = true)) := by
  constructor
  · intro s cur hcur hrun hp hq
    rw [preemptCheckChar s cur hcur, if_neg (by tauto), if_neg (by simp [hrun])]
    refine ⟨?_, fun i => rfl, rfl⟩
    simp [addToUserInteractionQueue, setQueue]
  · intro s i hc
    cases hcur : s.current with
    | none =>
      left
      rw [preemptUserInteractionIfNeeded, hcur] at hc
      exact hc
    | some cur =>
      rw [preemptCheckChar s cur hcur] at hc
      by_cases h1 : (s.data cur).priority = .HIGH ∨ s.queues .HIGH = []
      · rw [if_pos h1] at hc
        exact Or.inl hc
      · rw [if_neg h1] at hc
        by_cases h2 : (s.data cur).running = true
        · rw [if_pos h2] at hc
          by_cases hicur : i = cur
          · right
            rw [hicur]
            exact ⟨rfl, h2⟩
          · left
            simpa [preemptInteraction, upd, hicur] using hc
        · rw [if_neg h2] at hc
          exact Or.inl hc

/-- A state on which C7's requeue branch fires: lease 0 (NORMAL) is
current but not yet running, and a HIGH lease (id 1) is queued. -/
def witRequeueState : ArbState :=
  { queues := fun p => if p = .HIGH then [1] else [],
    current := some 0,
    lockHolder := none,
    data := fun j => if j = 0 then
        { priority := .NORMAL, eventSet := true, running := false,
          preempted := false, cancelled := false }
      else freshData .HIGH,
    phase := fun j => if j = 0 then .waitingInQueue else .waitingInQueue,
    nextId := 2 }

/-- Witness for C7 at `witRequeueState` (requeue part) and at
`witPreemptState` (only-running-is-cancelled part). -/
theorem claim7_requeue_granted_not_running_witness :
    ((preemptUserInteractionIfNeeded witRequeueState).queues
          ((witRequeueState.data 0).priority)
        = witRequeueState.queues ((witRequeueState.data 0).priority) ++ [0]
      ∧ (∀ i, (preemptUserInteractionIfNeeded witRequeueState).data i
          = witRequeueState.data i)
      ∧ (preemptUserInteractionIfNeeded witRequeueState).current
          = witRequeueState.current)
    ∧ ((witPreemptState.data 0).cancelled = true
        ∨ (witPreemptState.current = some 0
            ∧ (witPreemptState.data 0).running = true)) :=
  ⟨claim7_requeue_granted_not_running.1 witRequeueState 0
      (by decide) (by decide) (by decide) (by decide),
   claim7_requeue_granted_not_running.2 witPreemptState 0 (by decide)⟩

/-! ## Claim C3 -/

/-- Lease 0 (NORMAL) acquires and is granted; lease 1 (NORMAL) acquires
and waits in the queue; then lease 1's task is cancelled while queued. -/
def cancelLeakState : ArbState :=
  cancelQueuedStep (acquireStep (acquireStep initState .NORMAL) .NORMAL) 1

/-- C3, code bug: the trace above is a real execution of the arbitrator,
and after the cancellation propagates, the cancelled lease 1 is still in
the NORMAL queue — `user_interaction` has no removal on the cancellation
path (the repository's own test
`test_user_interaction_handles_early_cancellation_properly` expects a
`_remove_from_user_interaction_queue` call, but no such method exists in
`TelegramBotApi`). -/
theorem claim3_cancel_leaves_queue_entry :
    Reachable cancelLeakState
    ∧ cancelLeakState.phase 1 = .idle
    ∧ cancelLeakState.queues .NORMAL = [1]
    ∧ cancelLeakState.current = some 0 :=
  ⟨Reachable.step
      (Reachable.step
        (Reachable.step Reachable.init (Step.acquire _ .NORMAL))
        (Step.acquire _ .NORMAL))
      (Step.cancelWhileQueued _ 1 (by decide)),
   by decide, by decide, by decide⟩

/-! ## Claim C8 -/

/-- C8: on a cancellation received in the body, the except-clause raises
`UserInteractionPreempted` (after `task.uncancel()`) exactly when the
lease was preempted and `propagate_preemption` is true (the default);
otherwise — preempted with the flag false, or not preempted at all — the
plain `CancelledError` is re-raised and `uncancel` is not called. -/
theorem claim8_preemption_signalling :
    ∀ preempted propagate : Bool,
      (handleBodyCancellation preempted propagate).raised
          = (if preempted && propagate then .userInteractionPreempted
             else .cancelledError)
      ∧ (handleBodyCancellation preempted propagate).uncancelled
          = (preempted && propagate)
      ∧ propagatePreemptionDefault = true := by
  decide

/-! ## Claim C9 -/

/-- A registry with no entries. -/
def emptyRegistry : CorrelationRegistry :=
  { callbackEvents := fun _ => none, callbackEventResults := fun _ => none }

/-- C9, counterexample: register callback id 5, then resolve it with
position 2; afterwards the registry STILL holds an entry for id 5 — the
(now set) wake event and the stored result — although the claim says the
entry is destroyed once resolved. -/
theorem claim9_counterexample :
    (handleCallbackQuery (initCallback emptyRegistry 5) 5 2).map
        (fun r => r.callbackEvents 5) = some (some true)
    ∧ (handleCallbackQuery (initCallback emptyRegistry 5) 5 2).map
        (fun r => r.callbackEventResults 5) = some (some 2) := by
  decide

/-- C9, amended: resolving a registered callback id stores the value and
fires the wake signal, but destroys nothing — the registry retains both
the (now set) wake event and the result slot for that id. (The
abandonment path of `wait_for_user_interaction` likewise only deletes the
prompt message and leaves the registry entry in place.) -/
theorem claim9_amended_entry_retained (r : CorrelationRegistry)
    (cid pos : Nat) :
    (handleCallbackQuery (initCallback r cid) cid pos).map
        (fun x => x.callbackEvents cid) = some (some true)
    ∧ (handleCallbackQuery (initCallback r cid) cid pos).map
        (fun x => x.callbackEventResults cid) = some (some pos) := by
  simp [handleCallbackQuery, initCallback]

/-! ## Claim C6 -/

/-- Environment in which the first attempt is answered by a failure
response whose result string contains "not found" but is not exactly
"file not found". -/
def envFailNoteNotFound : Nat → Option RpcResponse :=
  fun k => if k = 1 then
    some { success := false, result := some "note not found" }
  else none

/-- C6, counterexample: the result string "note not found" contains
"not found", yet the client raises the generic `RuntimeError`, not
`FileNotFoundError` — the code compares the result for exact equality
with "file not found" rather than by substring. -/
theorem claim6_counterexample :
    pyIn "not found" "note not found" = true
    ∧ (obsidianSendRequest (fun k => k) envFailNoteNotFound).outcome
        = .runtimeError
    ∧ (obsidianSendRequest (fun k => k) envFailNoteNotFound).outcome
        ≠ .fileNotFoundError := by
  decide

/-- C6, amended: whenever a failure response (success false with a result
string) is received — on any attempt `k ≤ 3`, all earlier attempts having
timed out — the client surfaces it on that very attempt (never retries
after it: exactly `k` attempts are made) and classifies by: exact
equality with "file not found" → `FileNotFoundError`; otherwise a result
*containing* "Destination file already exists" → `FileExistsError`;
otherwise the generic `RuntimeError`. -/
theorem claim6_amended_failure_classification (ids : Nat → Nat)
    (env : Nat → Option RpcResponse) (r : String) (k : Nat)
    (hk1 : 1 ≤ k) (hk3 : k ≤ 3)
    (henv : env k = some { success := false, result := some r })
    (hbefore : ∀ j, 1 ≤ j → j < k → env j = none) :
    (obsidianSendRequest ids env).attemptsMade = k
    ∧ (obsidianSendRequest ids env).outcome =
        (if r = "file not found" then .fileNotFoundError
         else if pyIn "Destination file already exists" r then .fileExistsError
         else .runtimeError) := by
  interval_cases k
  · simp [obsidianSendRequest, List.range', sendRequestLoop, henv,
      classifyResponse]
  · have h1 : env 1 = none := hbefore 1 (by omega) (by omega)
    simp [obsidianSendRequest, List.range', sendRequestLoop, h1, henv,
      classifyResponse]
  · have h1 : env 1 = none := hbefore 1 (by omega) (by omega)
    have h2 : env 2 = none := hbefore 2 (by omega) (by omega)
    simp [obsidianSendRequest, List.range', sendRequestLoop, h1, h2, henv,
      classifyResponse]

/-- Environment whose first attempt times out and whose second attempt is
answered by an unclassifiable failure. -/
def envFailBoomSecond : Nat → Option RpcResponse :=
  fun k => if k = 2 then
    some { success := false, result := some "boom" }
  else none

/-- Witness for C6 amended at `envFailBoomSecond`: a failure received on
the second attempt after a first-attempt timeout. -/
theorem claim6_amended_failure_classification_witness :
    (obsidianSendRequest (fun k => k) envFailBoomSecond).attemptsMade = 2
    ∧ (obsidianSendRequest (fun k => k) envFailBoomSecond).outcome =
        (if "boom" = "file not found" then .fileNotFoundError
         else if pyIn "Destination file already exists" "boom" then .fileExistsError
         else .runtimeError) :=
  claim6_amended_failure_classification (fun k => k) envFailBoomSecond
    "boom" 2 (by decide) (by decide) (by decide)
    (by intro j hj hj'; interval_cases j; decide)

/-! ## Claim C10 -/

/-- C10: if the response that arrives (on some attempt `k ≤ 3`, all
earlier attempts having timed out) has success true and no result field,
the call completes successfully and returns `None` — the success path
reads the result with a `None` default (`response.get("result", None)`). -/
theorem claim10_success_without_result (ids : Nat → Nat)
    (env : Nat → Option RpcResponse) (k : Nat)
    (hk1 : 1 ≤ k) (hk3 : k ≤ 3)
    (hresp : env k = some { success := true, result := none })
    (hbefore : ∀ j, 1 ≤ j → j < k → env j = none) :
    (obsidianSendRequest ids env).outcome = .ok none
    ∧ (obsidianSendRequest ids env).attemptsMade = k := by
  interval_cases k
  · simp [obsidianSendRequest, List.range', sendRequestLoop, hresp,
      classifyResponse]
  · have h1 : env 1 = none := hbefore 1 (by omega) (by omega)
    simp [obsidianSendRequest, List.range', sendRequestLoop, h1, hresp,
      classifyResponse]
  · have h1 : env 1 = none := hbefore 1 (by omega) (by omega)
    have h2 : env 2 = none := hbefore 2 (by omega) (by omega)
    simp [obsidianSendRequest, List.range', sendRequestLoop, h1, h2, hresp,
      classifyResponse]

/-- Environment answering the first attempt with a result-less success. -/
def envSuccessNoResult : Nat → Option RpcResponse :=
  fun k => if k = 1 then some { success := true, result := none } else none

/-- Witness for C10 at attempt 1. -/
theorem claim10_success_without_result_witness :
    (obsidianSendRequest (fun k => k) envSuccessNoResult).outcome = .ok none
    ∧ (obsidianSendRequest (fun k => k) envSuccessNoResult).attemptsMade = 1 :=
  claim10_success_without_result (fun k => k) envSuccessNoResult 1
    (by decide) (by decide) (by decide)
    (by intro j hj hj'; omega)

/-! ## Claim C4 -/

/-- C4: when every attempt times out, the client makes exactly 3 attempts
(`max_attempts`), drawing a fresh `request_id` on each attempt — pairwise
distinct given that the uuid draws are distinct — removes each attempt's
now-stale payload from the outbound queue after its timeout (so the queue
ends empty), and raises `ObsidianApiTimeoutError` after the final
attempt. -/
theorem claim4_retries_on_timeout (ids : Nat → Nat)
    (env : Nat → Option RpcResponse)
    (h1 : env 1 = none) (h2 : env 2 = none) (h3 : env 3 = none)
    (d12 : ids 1 ≠ ids 2) (d13 : ids 1 ≠ ids 3) (d23 : ids 2 ≠ ids 3) :
    (obsidianSendRequest ids env).attemptsMade = 3
    ∧ (obsidianSendRequest ids env).requestIds = [ids 1, ids 2, ids 3]
    ∧ (obsidianSendRequest ids env).requestIds.Pairwise (· ≠ ·)
    ∧ (obsidianSendRequest ids env).outbound = []
    ∧ (obsidianSendRequest ids env).outcome = .obsidianApiTimeoutError := by
  have e : obsidianSendRequest ids env =
      { attemptsMade := 3, requestIds := [ids 1, ids 2, ids 3],
        outbound := ([ids 3].filter fun x => decide (x ≠ ids 3)),
        outcome := .obsidianApiTimeoutError } := by
    simp [obsidianSendRequest, List.range', sendRequestLoop, h1, h2, h3]
  rw [e]
  refine ⟨rfl, rfl, ?_, ?_, rfl⟩
  · simp [List.pairwise_cons, d12, d13, d23]
  · simp

/-- Witness for C4: distinct ids, every attempt times out. -/
theorem claim4_retries_on_timeout_witness :
    (obsidianSendRequest (fun k => k) (fun _ => none)).attemptsMade = 3
    ∧ (obsidianSendRequest (fun k => k) (fun _ => none)).requestIds = [1, 2, 3]
    ∧ (obsidianSendRequest (fun k => k) (fun _ => none)).requestIds.Pairwise (· ≠ ·)
    ∧ (obsidianSendRequest (fun k => k) (fun _ => none)).outbound = []
    ∧ (obsidianSendRequest (fun k => k) (fun _ => none)).outcome
        = .obsidianApiTimeoutError :=
  claim4_retries_on_timeout (fun k => k) (fun _ => none)
    rfl rfl rfl (by decide) (by decide) (by decide)

/-! ## Projection lemmas

`_try_to_allow_next_user_interaction` (and the functions it calls) only
mutates the queues, the interaction objects and the current slot — never
the tasks' control points, the lock, or the freshness counter. -/

theorem preemptScanStep_phase (s : ArbState) (cur : Nat)
    (p : UserInteractionPriority) :
    (preemptScanStep s cur p).phase = s.phase := by
  unfold preemptScanStep
  split
  · rfl
  · split <;> rfl

theorem preemptScanStep_lockHolder (s : ArbState) (cur : Nat)
    (p : UserInteractionPriority) :
    (preemptScanStep s cur p).lockHolder = s.lockHolder := by
  unfold preemptScanStep
  split
  · rfl
  · split <;> rfl

theorem preemptScanStep_nextId (s : ArbState) (cur : Nat)
    (p : UserInteractionPriority) :
    (preemptScanStep s cur p).nextId = s.nextId := by
  unfold preemptScanStep
  split
  · rfl
  · split <;> rfl

theorem preemptScanStep_current (s : ArbState) (cur : Nat)
    (p : UserInteractionPriority) :
    (preemptScanStep s cur p).current = s.current := by
  unfold preemptScanStep
  split
  · rfl
  · split <;> rfl

theorem preemptCheck_phase (s : ArbState) :
    (preemptUserInteractionIfNeeded s).phase = s.phase := by
  unfold preemptUserInteractionIfNeeded
  cases s.current
  · rfl
  · exact preemptScanStep_phase ..

theorem preemptCheck_lockHolder (s : ArbState) :
    (preemptUserInteractionIfNeeded s).lockHolder = s.lockHolder := by
  unfold preemptUserInteractionIfNeeded
  cases s.current
  · rfl
  · exact preemptScanStep_lockHolder ..

theorem preemptCheck_nextId (s : ArbState) :
    (preemptUserInteractionIfNeeded s).nextId = s.nextId := by
  unfold preemptUserInteractionIfNeeded
  cases s.current
  · rfl
  · exact preemptScanStep_nextId ..

theorem preemptCheck_current (s : ArbState) :
    (preemptUserInteractionIfNeeded s).current = s.current := by
  unfold preemptUserInteractionIfNeeded
  cases hc : s.current with
  | none => exact hc
  | some cur => exact (preemptScanStep_current s cur .HIGH).trans hc

theorem grantScan_phase (s : ArbState) (l : List UserInteractionPriority) :
    (grantScan s l).phase = s.phase := by
  induction l with
  | nil => rfl
  | cons p rest ih =>
    rw [grantScan]
    split
    · exact ih
    · rfl

theorem grantScan_lockHolder (s : ArbState)
    (l : List UserInteractionPriority) :
    (grantScan s l).lockHolder = s.lockHolder := by
  induction l with
  | nil => rfl
  | cons p rest ih =>
    rw [grantScan]
    split
    · exact ih
    · rfl

theorem grantScan_nextId (s : ArbState) (l : List UserInteractionPriority) :
    (grantScan s l).nextId = s.nextId := by
  induction l with
  | nil => rfl
  | cons p rest ih =>
    rw [grantScan]
    split
    · exact ih
    · rfl

theorem tryAllow_phase (s : ArbState) :
    (tryToAllowNextUserInteraction s).phase = s.phase := by
  simp only [tryToAllowNextUserInteraction]
  split
  · exact preemptCheck_phase s
  · rw [grantScan_phase, preemptCheck_phase]

theorem tryAllow_lockHolder (s : ArbState) :
    (tryToAllowNextUserInteraction s).lockHolder = s.lockHolder := by
  simp only [tryToAllowNextUserInteraction]
  split
  · exact preemptCheck_lockHolder s
  · rw [grantScan_lockHolder, preemptCheck_lockHolder]

theorem tryAllow_nextId (s : ArbState) :
    (tryToAllowNextUserInteraction s).nextId = s.nextId := by
  simp only [tryToAllowNextUserInteraction]
  split
  · exact preemptCheck_nextId s
  · rw [grantScan_nextId, preemptCheck_nextId]

/-! ## Queue invariants

Ids are handed out in acquire order, so "acquired earlier" is "smaller
id". `neverGrantedQueue s p` is tier `p`'s queue restricted to the leases
whose wake event has never been set, i.e. the waiters that have never been
granted (re-enqueued preempted leases have a set event and are excluded). -/

def neverGrantedQueue (s : ArbState) (p : UserInteractionPriority) :
    List Nat :=
  (s.queues p).filter fun i => !(s.data i).eventSet

/-- Queue-shape invariant: every queued or current id was actually
created; the current interaction's wake event is set; and within each
tier the never-granted waiters appear in acquire (id) order. -/
structure QInv (s : ArbState) : Prop where
  born : ∀ p i, i ∈ s.queues p → i < s.nextId
  curBorn : ∀ i, s.current = some i → i < s.nextId
  curEvent : ∀ i, s.current = some i → (s.data i).eventSet = true
  fifo : ∀ p, (neverGrantedQueue s p).Pairwise (· < ·)

theorem preemptInteraction_eventSet (s : ArbState) (cur i : Nat) :
    ((preemptInteraction s cur).data i).eventSet = (s.data i).eventSet := by
  by_cases h : i = cur <;> simp [preemptInteraction, upd, h]

theorem qinv_preemptInteraction {s : ArbState} (cur : Nat) (h : QInv s) :
    QInv (preemptInteraction s cur) := by
  refine ⟨h.born, h.curBorn, ?_, ?_⟩
  · intro i hi
    rw [preemptInteraction_eventSet]
    exact h.curEvent i hi
  · intro p
    have e : neverGrantedQueue (preemptInteraction s cur) p
        = neverGrantedQueue s p := by
      unfold neverGrantedQueue
      exact List.filter_congr fun a _ => by rw [preemptInteraction_eventSet]
    rw [e]
    exact h.fifo p

theorem addToUserInteractionQueue_queues (s : ArbState) (c : Nat)
    (p : UserInteractionPriority) :
    (addToUserInteractionQueue s c).queues p =
      if p = (s.data c).priority then s.queues ((s.data c).priority) ++ [c]
      else s.queues p := rfl

theorem qinv_addGrantedBack {s : ArbState} (c : Nat) (h : QInv s)
    (hev : (s.data c).eventSet = true) (hb : c < s.nextId) :
    QInv (addToUserInteractionQueue s c) := by
  refine ⟨?_, h.curBorn, h.curEvent, ?_⟩
  · intro p i hi
    rw [addToUserInteractionQueue_queues] at hi
    by_cases hp : p = (s.data c).priority
    · rw [if_pos hp] at hi
      rcases List.mem_append.mp hi with hi | hi
      · exact h.born _ i hi
      · rw [List.mem_singleton.mp hi]
        exact hb
    · rw [if_neg hp] at hi
      exact h.born p i hi
  · intro p
    have e : neverGrantedQueue (addToUserInteractionQueue s c) p
        = neverGrantedQueue s p := by
      unfold neverGrantedQueue
      rw [show (addToUserInteractionQueue s c).data = s.data from rfl,
        addToUserInteractionQueue_queues]
      by_cases hp : p = (s.data c).priority
      · rw [if_pos hp, hp, List.filter_append]
        simp [hev]
      · rw [if_neg hp]
    rw [e]
    exact h.fifo p

theorem qinv_grantScan {s : ArbState} (h : QInv s)
    (l : List UserInteractionPriority) : QInv (grantScan s l) := by
  induction l with
  | nil => exact h
  | cons p rest ih =>
    rw [grantScan]
    split
    · exact ih
    · rename_i i q hq
      have hqueues : ∀ r,
          ({ allowToRun (setQueue s p q) i with current := some i } :
              ArbState).queues r
            = (if r = p then q else s.queues r) := fun r => rfl
      have hdata : ({ allowToRun (setQueue s p q) i with current := some i } :
            ArbState).data
          = upd s.data i ({ s.data i with eventSet := true }) := rfl
      constructor
      · intro r j hj
        rw [show ({ allowToRun (setQueue s p q) i with current := some i } :
              ArbState).nextId = s.nextId from rfl]
        rw [hqueues] at hj
        by_cases hr : r = p
        · rw [if_pos hr] at hj
          exact h.born p j (by rw [hq]; exact List.mem_cons_of_mem i hj)
        · rw [if_neg hr] at hj
          exact h.born r j hj
      · intro j hj
        cases hj
        exact h.born p i (by rw [hq]; exact List.mem_cons_self i q)
      · intro j hj
        cases hj
        rw [hdata]
        simp [upd]
      · intro r
        have hsub1 : List.Sublist
            (neverGrantedQueue
              { allowToRun (setQueue s p q) i with current := some i } r)
            ((if r = p then q else s.queues r).filter
              fun j => !(s.data j).eventSet) := by
          unfold neverGrantedQueue
          rw [hdata, hqueues]
          refine List.monotone_filter_right _ fun a ha => ?_
          by_cases hac : a = i
          · rw [hac] at ha
            simp [upd] at ha
          · rw [show (upd s.data i ({ s.data i with eventSet := true }) a)
                = s.data a from by simp [upd, hac]] at ha
            exact ha
        have hsub2 : List.Sublist
            ((if r = p then q else s.queues r).filter
              fun j => !(s.data j).eventSet)
            (neverGrantedQueue s r) := by
          unfold neverGrantedQueue
          by_cases hr : r = p
          · rw [if_pos hr, hr, hq]
            exact (List.sublist_cons_self i q).filter _
          · rw [if_neg hr]
        exact ((h.fifo r).sublist (hsub1.trans hsub2))

theorem qinv_preemptCheck {s : ArbState} (h : QInv s) :
    QInv (preemptUserInteractionIfNeeded s) := by
  cases hc : s.current with
  | none =>
    unfold preemptUserInteractionIfNeeded
    rw [hc]
    exact h
  | some cur =>
    rw [preemptCheckChar s cur hc]
    split
    · exact h
    · split
      · exact qinv_preemptInteraction cur h
      · exact qinv_addGrantedBack cur h (h.curEvent cur hc) (h.curBorn cur hc)

theorem qinv_tryAllow {s : ArbState} (h : QInv s) :
    QInv (tryToAllowNextUserInteraction s) := by
  simp only [tryToAllowNextUserInteraction]
  split
  · exact qinv_preemptCheck h
  · exact qinv_grantScan (qinv_preemptCheck h) _

theorem upd_same {α : Type} (f : Nat → α) (i : Nat) (a : α) :
    upd f i a i = a := by
  simp [upd]

theorem upd_ne {α : Type} (f : Nat → α) (i : Nat) (a : α) (j : Nat)
    (h : j ≠ i) : upd f i a j = f j := by
  simp [upd, h]

/-- `QInv` transfers along any state change that keeps the queues, the
current slot, the freshness counter and every interaction's wake-event
flag. -/
theorem qinv_congr (s t : ArbState) (hq : t.queues = s.queues)
    (hc : t.current = s.current) (hn : t.nextId = s.nextId)
    (he : ∀ j, (t.data j).eventSet = (s.data j).eventSet)
    (h : QInv s) : QInv t := by
  refine ⟨?_, ?_, ?_, ?_⟩
  · intro p i hi
    rw [hn]
    exact h.born p i (by rwa [hq] at hi)
  · intro i hi
    rw [hn]
    exact h.curBorn i (by rwa [hc] at hi)
  · intro i hi
    rw [he]
    exact h.curEvent i (by rwa [hc] at hi)
  · intro p
    have e : neverGrantedQueue t p = neverGrantedQueue s p := by
      unfold neverGrantedQueue
      rw [hq]
      exact List.filter_congr fun a _ => by rw [he]
    rw [e]
    exact h.fifo p

/-- The full reachability invariant: queue shape, plus: ids at or above
the freshness counter have never entered `user_interaction`, and a task is
executing its body exactly when it holds the per-user lock. -/
structure Inv (s : ArbState) : Prop where
  q : QInv s
  unborn : ∀ i, s.nextId ≤ i → s.phase i = .idle
  lockIff : ∀ i, (s.phase i = .inBody ↔ s.lockHolder = some i)

theorem inv_tryAllow {s : ArbState} (h : Inv s) :
    Inv (tryToAllowNextUserInteraction s) := by
  refine ⟨qinv_tryAllow h.q, ?_, ?_⟩
  · intro i hi
    rw [tryAllow_phase]
    exact h.unborn i (by rwa [tryAllow_nextId] at hi)
  · intro i
    rw [tryAllow_phase, tryAllow_lockHolder]
    exact h.lockIff i

theorem inv_init : Inv initState := by
  refine ⟨⟨?_, ?_, ?_, ?_⟩, ?_, ?_⟩
  · intro p i hi
    exact absurd hi (List.not_mem_nil i)
  · intro i hi
    exact absurd hi (by simp [initState])
  · intro i hi
    exact absurd hi (by simp [initState])
  · intro p
    exact List.Pairwise.nil
  · intro i _
    rfl
  · intro i
    simp [initState]

theorem inv_acquire {s : ArbState} (h : Inv s)
    (p : UserInteractionPriority) : Inv (acquireStep s p) := by
  have hfresh : ∀ (s0 : ArbState),
      s0 = { s with data := upd s.data s.nextId (freshData p),
                    phase := upd s.phase s.nextId .waitingInQueue,
                    nextId := s.nextId + 1 } →
      Inv (addToUserInteractionQueue s0 s.nextId) := by
    intro s0 hs0
    have hd0 : s0.data s.nextId = freshData p := by
      rw [hs0]; exact upd_same ..
    have hqueues1 : ∀ r, (addToUserInteractionQueue s0 s.nextId).queues r
        = if r = p then s.queues p ++ [s.nextId] else s.queues r := by
      intro r
      rw [addToUserInteractionQueue_queues, hd0]
      rw [show (freshData p).priority = p from rfl, hs0]
    have hdata1 : (addToUserInteractionQueue s0 s.nextId).data
        = upd s.data s.nextId (freshData p) := by rw [hs0]; rfl
    have hphase1 : (addToUserInteractionQueue s0 s.nextId).phase
        = upd s.phase s.nextId .waitingInQueue := by rw [hs0]; rfl
    have hnext1 : (addToUserInteractionQueue s0 s.nextId).nextId
        = s.nextId + 1 := by rw [hs0]; rfl
    have hcur1 : (addToUserInteractionQueue s0 s.nextId).current
        = s.current := by rw [hs0]; rfl
    have hlock1 : (addToUserInteractionQueue s0 s.nextId).lockHolder
        = s.lockHolder := by rw [hs0]; rfl
    refine ⟨⟨?_, ?_, ?_, ?_⟩, ?_, ?_⟩
    · intro r i hi
      rw [hnext1]
      rw [hqueues1] at hi
      by_cases hr : r = p
      · rw [if_pos hr] at hi
        rcases List.mem_append.mp hi with hi | hi
        · exact Nat.lt_succ_of_lt (h.q.born p i hi)
        · rw [List.mem_singleton.mp hi]
          exact Nat.lt_succ_self _
      · rw [if_neg hr] at hi
        exact Nat.lt_succ_of_lt (h.q.born r i hi)
    · intro i hi
      rw [hnext1]
      rw [hcur1] at hi
      exact Nat.lt_succ_of_lt (h.q.curBorn i hi)
    · intro i hi
      rw [hcur1] at hi
      have hlt : i < s.nextId := h.q.curBorn i hi
      rw [hdata1, upd_ne _ _ _ _ (Nat.ne_of_lt hlt)]
      exact h.q.curEvent i hi
    · intro r
      have hmemne : ∀ a, a ∈ s.queues r → a ≠ s.nextId :=
        fun a ha => Nat.ne_of_lt (h.q.born r a ha)
      by_cases hr : r = p
      · have e : neverGrantedQueue (addToUserInteractionQueue s0 s.nextId) r
            = neverGrantedQueue s p ++ [s.nextId] := by
          unfold neverGrantedQueue
          rw [hdata1, hqueues1, if_pos hr, List.filter_append]
          have e1 : List.filter
              (fun i => !((upd s.data s.nextId (freshData p)) i).eventSet)
              (s.queues p)
              = List.filter (fun i => !(s.data i).eventSet) (s.queues p) :=
            List.filter_congr fun a ha => by
              rw [upd_ne _ _ _ _ (Nat.ne_of_lt (h.q.born p a ha))]
          have e2 : List.filter
              (fun i => !((upd s.data s.nextId (freshData p)) i).eventSet)
              [s.nextId] = [s.nextId] := by
            simp [upd_same, freshData]
          rw [e1, e2]
        rw [e]
        rw [List.pairwise_append]
        refine ⟨h.q.fifo p, List.pairwise_singleton _ _, ?_⟩
        intro a ha b hb
        rw [List.mem_singleton.mp hb]
        exact h.q.born p a (List.mem_filter.mp ha).1
      · have e : neverGrantedQueue (addToUserInteractionQueue s0 s.nextId) r
            = neverGrantedQueue s r := by
          unfold neverGrantedQueue
          rw [hdata1, hqueues1, if_neg hr]
          exact List.filter_congr fun a ha => by
            rw [upd_ne _ _ _ _ (hmemne a ha)]
        rw [e]
        exact h.q.fifo r
    · intro i hi
      rw [hnext1] at hi
      rw [hphase1, upd_ne _ _ _ _ (by omega)]
      exact h.unborn i (by omega)
    · intro i
      rw [hphase1, hlock1]
      by_cases hii : i = s.nextId
      · rw [hii, upd_same]
        constructor
        · intro hc
          exact absurd hc (by simp)
        · intro hc
          have : s.phase s.nextId = .inBody := (h.lockIff s.nextId).mpr hc
          rw [h.unborn s.nextId (Nat.le_refl _)] at this
          exact absurd this (by simp)
      · rw [upd_ne _ _ _ _ hii]
        exact h.lockIff i
  have := hfresh _ rfl
  exact inv_tryAllow this

theorem inv_wake {s : ArbState} {i : Nat} (h : Inv s)
    (h1 : s.phase i = .waitingInQueue) : Inv (wakeStep s i) := by
  have hborn : i < s.nextId := by
    by_contra hge
    rw [h.unborn i (Nat.le_of_not_lt hge)] at h1
    exact absurd h1 (by simp)
  refine ⟨?_, ?_, ?_⟩
  · refine qinv_congr s (wakeStep s i) rfl rfl rfl ?_ h.q
    intro j
    by_cases hj : j = i
    · rw [hj]
      rw [show (wakeStep s i).data i
          = { s.data i with running := true } from upd_same ..]
    · rw [show (wakeStep s i).data j = s.data j from upd_ne _ _ _ _ hj]
  · intro j hj
    rw [show (wakeStep s i).phase = upd s.phase i .awaitingLock from rfl,
      upd_ne _ _ _ _ (by rw [show (wakeStep s i).nextId = s.nextId from rfl] at hj; omega)]
    exact h.unborn j (by rw [show (wakeStep s i).nextId = s.nextId from rfl] at hj; exact hj)
  · intro j
    rw [show (wakeStep s i).phase = upd s.phase i .awaitingLock from rfl,
      show (wakeStep s i).lockHolder = s.lockHolder from rfl]
    by_cases hj : j = i
    · rw [hj, upd_same]
      constructor
      · intro hc
        exact absurd hc (by simp)
      · intro hc
        have := (h.lockIff i).mpr hc
        rw [h1] at this
        exact absurd this (by simp)
    · rw [upd_ne _ _ _ _ hj]
      exact h.lockIff j

theorem inv_lock {s : ArbState} {i : Nat} (h : Inv s)
    (h1 : s.phase i = .awaitingLock) (h2 : s.lockHolder = none) :
    Inv (lockStep s i) := by
  refine ⟨qinv_congr s (lockStep s i) rfl rfl rfl (fun j => rfl) h.q, ?_, ?_⟩
  · intro j hj
    rw [show (lockStep s i).nextId = s.nextId from rfl] at hj
    have hji : j ≠ i := by
      intro hji
      rw [hji] at hj
      rw [h.unborn i hj] at h1
      exact absurd h1 (by simp)
    rw [show (lockStep s i).phase = upd s.phase i .inBody from rfl,
      upd_ne _ _ _ _ hji]
    exact h.unborn j hj
  · intro j
    rw [show (lockStep s i).phase = upd s.phase i .inBody from rfl,
      show (lockStep s i).lockHolder = some i from rfl]
    by_cases hj : j = i
    · rw [hj, upd_same]
      simp
    · rw [upd_ne _ _ _ _ hj]
      constructor
      · intro hc
        rw [(h.lockIff j).mp hc] at h2
        exact absurd h2 (by simp)
      · intro hc
        exact absurd (Option.some_inj.mp hc) fun e => hj e.symm

theorem inv_finish {s : ArbState} {i : Nat} (h : Inv s)
    (h2 : s.lockHolder = some i) : Inv (finishStep s i) := by
  have hs1 : Inv ({ s with current := none } : ArbState) := by
    refine ⟨⟨h.q.born, ?_, ?_, h.q.fifo⟩, h.unborn, h.lockIff⟩
    · intro j hj
      exact absurd hj (by simp)
    · intro j hj
      exact absurd hj (by simp)
  have hs2 := inv_tryAllow hs1
  set s2 := tryToAllowNextUserInteraction ({ s with current := none }) with hs2def
  have hphase2 : s2.phase = s.phase := by
    rw [hs2def, tryAllow_phase]
  refine ⟨qinv_congr s2 (finishStep s i) rfl rfl rfl (fun j => rfl) hs2.q, ?_, ?_⟩
  · intro j hj
    rw [show (finishStep s i).nextId = s2.nextId from rfl] at hj
    rw [show (finishStep s i).phase = upd s2.phase i .idle from rfl]
    by_cases hj' : j = i
    · rw [hj', upd_same]
    · rw [upd_ne _ _ _ _ hj']
      exact hs2.unborn j hj
  · intro j
    rw [show (finishStep s i).phase = upd s2.phase i .idle from rfl,
      show (finishStep s i).lockHolder = none from rfl]
    by_cases hj : j = i
    · rw [hj, upd_same]
      simp
    · rw [upd_ne _ _ _ _ hj, hphase2]
      constructor
      · intro hc
        have := (h.lockIff j).mp hc
        rw [h2] at this
        exact absurd (Option.some_inj.mp this).symm hj
      · intro hc
        exact absurd hc (by simp)

theorem inv_cancelQueued {s : ArbState} {i : Nat} (h : Inv s)
    (h1 : s.phase i = .waitingInQueue) : Inv (cancelQueuedStep s i) := by
  refine ⟨qinv_congr s (cancelQueuedStep s i) rfl rfl rfl (fun j => rfl) h.q, ?_, ?_⟩
  · intro j hj
    rw [show (cancelQueuedStep s i).phase = upd s.phase i .idle from rfl]
    by_cases hj' : j = i
    · rw [hj', upd_same]
    · rw [upd_ne _ _ _ _ hj']
      exact h.unborn j hj
  · intro j
    rw [show (cancelQueuedStep s i).phase = upd s.phase i .idle from rfl,
      show (cancelQueuedStep s i).lockHolder = s.lockHolder from rfl]
    by_cases hj : j = i
    · rw [hj, upd_same]
      constructor
      · intro hc
        exact absurd hc (by simp)
      · intro hc
        have := (h.lockIff i).mpr hc
        rw [h1] at this
        exact absurd this (by simp)
    · rw [upd_ne _ _ _ _ hj]
      exact h.lockIff j

theorem inv_cancelAwaitLock {s : ArbState} {i : Nat} (h : Inv s)
    (h1 : s.phase i = .awaitingLock) : Inv (cancelAwaitLockStep s i) := by
  refine ⟨qinv_congr s (cancelAwaitLockStep s i) rfl rfl rfl (fun j => rfl) h.q, ?_, ?_⟩
  · intro j hj
    rw [show (cancelAwaitLockStep s i).phase = upd s.phase i .idle from rfl]
    by_cases hj' : j = i
    · rw [hj', upd_same]
    · rw [upd_ne _ _ _ _ hj']
      exact h.unborn j hj
  · intro j
    rw [show (cancelAwaitLockStep s i).phase = upd s.phase i .idle from rfl,
      show (cancelAwaitLockStep s i).lockHolder = s.lockHolder from rfl]
    by_cases hj : j = i
    · rw [hj, upd_same]
      constructor
      · intro hc
        exact absurd hc (by simp)
      · intro hc
        have := (h.lockIff i).mpr hc
        rw [h1] at this
        exact absurd this (by simp)
    · rw [upd_ne _ _ _ _ hj]
      exact h.lockIff j

/-- Every reachable state of the arbitrator satisfies the invariant. -/
theorem reachable_inv {s : ArbState} (h : Reachable s) : Inv s := by
  induction h with
  | init => exact inv_init
  | step _ hstep ih =>
    cases hstep with
    | acquire p => exact inv_acquire ih p
    | wake i h1 h2 h3 => exact inv_wake ih h1
    | lockAcquire i h1 h2 h3 => exact inv_lock ih h1 h2
    | finishBody i h1 h2 => exact inv_finish ih h2
    | cancelWhileQueued i h1 => exact inv_cancelQueued ih h1
    | cancelWhileAwaitingLock i h1 h2 => exact inv_cancelAwaitLock ih h1

/-! ## Claim C2 -/

/-- C2: in every reachable state of the per-user arbitrator — under any
sequence of acquire, wake (grant), lock, preempt, release and
cancellation steps — at most one interaction is in state Running. Running
is the spec's `Running (lock held)`: the task is inside `async with lock`,
executing its body. -/
theorem claim2_at_most_one_running (s : ArbState) (h : Reachable s)
    (i j : Nat) (hi : s.phase i = .inBody) (hj : s.phase j = .inBody) :
    i = j := by
  have inv := reachable_inv h
  have h1 := (inv.lockIff i).mp hi
  have h2 := (inv.lockIff j).mp hj
  rw [h1] at h2
  exact Option.some_inj.mp h2

/-- A reachable state with a running interaction: lease 0 acquires, is
granted, wakes and enters its body. -/
def exRunningState : ArbState :=
  lockStep (wakeStep (acquireStep initState .NORMAL) 0) 0

/-- `exRunningState` is reachable. -/
theorem exRunningState_reachable : Reachable exRunningState :=
  Reachable.step
    (Reachable.step
      (Reachable.step Reachable.init (Step.acquire _ .NORMAL))
      (Step.wake _ 0 (by decide) (by decide) (by decide)))
    (Step.lockAcquire _ 0 (by decide) (by decide) (by decide))

/-- Witness for C2 at `exRunningState`. -/
theorem claim2_at_most_one_running_witness :
    exRunningState.phase 0 = .inBody ∧ (0 : Nat) = (0 : Nat) :=
  ⟨by decide,
   claim2_at_most_one_running exRunningState exRunningState_reachable 0 0
     (by decide) (by decide)⟩

/-! ## Claim C5 -/

theorem preemptCheck_of_current_none (s : ArbState)
    (hc : s.current = none) : preemptUserInteractionIfNeeded s = s := by
  unfold preemptUserInteractionIfNeeded
  rw [hc]

theorem tryAllow_of_current_none (s : ArbState) (hc : s.current = none) :
    tryToAllowNextUserInteraction s = grantScan s priorityIterationOrder := by
  simp only [tryToAllowNextUserInteraction, preemptCheck_of_current_none s hc,
    hc]
  rfl

/-- C5: within every priority tier, service is strictly FIFO in acquire
order: (i) enqueuing appends at the back of the lease's own tier;
(ii) in every reachable state, the never-granted waiters of a tier stand
in acquire (id) order; (iii) hence the front waiter of a tier, if never
granted, was acquired before every other never-granted waiter behind it;
and (iv) when no lease is current, the grant check grants exactly the
front entry of the first non-empty tier, scanning HIGH, NORMAL, LOW. -/
theorem claim5_fifo_within_tier (s : ArbState) (h : Reachable s) :
    (∀ i, (addToUserInteractionQueue s i).queues ((s.data i).priority)
        = s.queues ((s.data i).priority) ++ [i])
    ∧ (∀ p, (neverGrantedQueue s p).Pairwise (· < ·))
    ∧ (∀ p i q, s.queues p = i :: q → (s.data i).eventSet = false →
        ∀ j, j ∈ q → (s.data j).eventSet = false → i < j)
    ∧ (s.current = none →
        (∀ i q, s.queues .HIGH = i :: q →
          (tryToAllowNextUserInteraction s).current = some i
          ∧ (tryToAllowNextUserInteraction s).queues .HIGH = q)
        ∧ (s.queues .HIGH = [] → ∀ i q, s.queues .NORMAL = i :: q →
          (tryToAllowNextUserInteraction s).current = some i
          ∧ (tryToAllowNextUserInteraction s).queues .NORMAL = q)
        ∧ (s.queues .HIGH = [] → s.queues .NORMAL = [] →
          ∀ i q, s.queues .LOW = i :: q →
          (tryToAllowNextUserInteraction s).current = some i
          ∧ (tryToAllowNextUserInteraction s).queues .LOW = q)) := by
  have inv := reachable_inv h
  refine ⟨?_, inv.q.fifo, ?_, ?_⟩
  · intro i
    rw [addToUserInteractionQueue_queues, if_pos rfl]
  · intro p i q hq hi j hj hjev
    have hfil : neverGrantedQueue s p
        = i :: List.filter (fun k => !(s.data k).eventSet) q := by
      unfold neverGrantedQueue
      rw [hq]
      exact List.filter_cons_of_pos (by simp [hi])
    have hpw := inv.q.fifo p
    rw [hfil] at hpw
    have := (List.pairwise_cons.mp hpw).1
    exact this j (List.mem_filter.mpr ⟨hj, by simp [hjev]⟩)
  · intro hc
    rw [tryAllow_of_current_none s hc]
    refine ⟨?_, ?_, ?_⟩
    · intro i q hq
      rw [show priorityIterationOrder = [.HIGH, .NORMAL, .LOW] from rfl,
        grantScan, hq]
      exact ⟨rfl, by simp [allowToRun, setQueue]⟩
    · intro hH i q hq
      rw [show priorityIterationOrder = [.HIGH, .NORMAL, .LOW] from rfl,
        grantScan, hH, grantScan, hq]
      exact ⟨rfl, by simp [allowToRun, setQueue]⟩
    · intro hH hN i q hq
      rw [show priorityIterationOrder = [.HIGH, .NORMAL, .LOW] from rfl,
        grantScan, hH, grantScan, hN, grantScan, hq]
      exact ⟨rfl, by simp [allowToRun, setQueue]⟩

/-- A reachable state with two NORMAL waiters queued behind a granted
lease: leases 0, 1, 2 all acquire at NORMAL; 0 is granted, the queue
holds [1, 2] in acquire order. -/
def exQueueState : ArbState :=
  acquireStep (acquireStep (acquireStep initState .NORMAL) .NORMAL) .NORMAL

/-- `exQueueState` is reachable. -/
theorem exQueueState_reachable : Reachable exQueueState :=
  Reachable.step
    (Reachable.step
      (Reachable.step Reachable.init (Step.acquire _ .NORMAL))
      (Step.acquire _ .NORMAL))
    (Step.acquire _ .NORMAL)

/-- Witness for C5 at `exQueueState`. -/
theorem claim5_fifo_within_tier_witness :
    (∀ i, (addToUserInteractionQueue exQueueState i).queues
          ((exQueueState.data i).priority)
        = exQueueState.queues ((exQueueState.data i).priority) ++ [i])
    ∧ (∀ p, (neverGrantedQueue exQueueState p).Pairwise (· < ·))
    ∧ (∀ p i q, exQueueState.queues p = i :: q →
        (exQueueState.data i).eventSet = false →
        ∀ j, j ∈ q → (exQueueState.data j).eventSet = false → i < j)
    ∧ (exQueueState.current = none →
        (∀ i q, exQueueState.queues .HIGH = i :: q →
          (tryToAllowNextUserInteraction exQueueState).current = some i
          ∧ (tryToAllowNextUserInteraction exQueueState).queues .HIGH = q)
        ∧ (exQueueState.queues .HIGH = [] →
          ∀ i q, exQueueState.queues .NORMAL = i :: q →
          (tryToAllowNextUserInteraction exQueueState).current = some i
          ∧ (tryToAllowNextUserInteraction exQueueState).queues .NORMAL = q)
        ∧ (exQueueState.queues .HIGH = [] →
          exQueueState.queues .NORMAL = [] →
          ∀ i q, exQueueState.queues .LOW = i :: q →
          (tryToAllowNextUserInteraction exQueueState).current = some i
          ∧ (tryToAllowNextUserInteraction exQueueState).queues .LOW = q)) :=
  claim5_fifo_within_tier exQueueState exQueueState_reachable

end Spanreed
